import Mathlib

/-!
# Verification of the pyflake snowflake-identifier generator

This file gives a shallow embedding of the identifier generator found in
`main.py` (the bit-layout codec `to_timestamp`, the issuance loop
`pyflake_generator`, and the seed helper `generate_seed`) together with the
record-producing variant found in `src/main.py` (class `Pyflake` and
`PyflakeClient`), and proves the specified properties about them.

Modelling conventions:
* Python integers are `ℤ`; Python bitwise operators on integers are the
  two's-complement operations `Int.lor`, `Int.land`, `Int.xor`, `<<<`, `>>>`
  (Mathlib's instances implement exactly the two's-complement semantics that
  Python uses, including on negative numbers).
* The issuance loop reads the wall clock once per iteration.  A run of the
  generator is therefore driven by a list of clock readings, one per loop
  iteration; `pyflake_cycle` is one iteration of the `while True:` body and
  returns either `StepOut.sleep ms` (the iteration called `sleep(ms)` and
  restarted via `continue` without emitting) or `StepOut.emit id` (the
  iteration reached the `yield`), together with the updated persistent state
  `(last_timestamp, sequence)`.
* The two `assert` statements guarding `pid` and `seed` at generator
  construction are modelled by `pyflake_generator` returning
  `Except PyflakeError GenState`; a failing assertion is the constructor-time
  validation error (`InvalidField` in the specification's taxonomy).
* `random.randint(a, b)` draws from the inclusive range `[a, b]`; the drawn
  value itself is random, so the embedding models the bounds of the range
  that the source passes to `randint`.
-/

/-- Bits reserved for the process id in a snowflake (`pid_bits = 5`). -/
def pid_bits : ℕ := 5

/-- Bits reserved for the seed in a snowflake (`seed_bits = 5`). -/
def seed_bits : ℕ := 5

/-- Bits reserved for the per-millisecond sequence (`sequence_bits = 12`). -/
def sequence_bits : ℕ := 12

/-- The Python idiom `-1 ^ (-1 << bits)` (bitwise xor of `-1` with `-1`
shifted left), which evaluates to the maximum unsigned value on `bits` bits.
Used by the source for `max_pid`, `max_seed` and `sequence_mask`. -/
def pyMaxFromBits (bits : ℕ) : ℤ := Int.xor (-1) ((-1 : ℤ) <<< (bits : ℤ))

/-- `max_pid = -1 ^ (-1 << pid_bits)` from the source. -/
def max_pid : ℤ := pyMaxFromBits pid_bits

/-- `max_seed = -1 ^ (-1 << seed_bits)` from the source. -/
def max_seed : ℤ := pyMaxFromBits seed_bits

/-- `sequence_mask = -1 ^ (-1 << sequence_bits)` from the source. -/
def sequence_mask : ℤ := pyMaxFromBits sequence_bits

/-- Bit position of the process id inside a snowflake
(`pid_shift = sequence_bits`). -/
def pid_shift : ℕ := sequence_bits

/-- Bit position of the seed inside a snowflake
(`seed_shift = sequence_bits + pid_bits`). -/
def seed_shift : ℕ := sequence_bits + pid_bits

/-- Bit position of the timestamp inside a snowflake
(`timestamp_shift = sequence_bits + pid_bits + seed_bits`). -/
def timestamp_shift : ℕ := sequence_bits + pid_bits + seed_bits

/-- The value produced at the `yield` of `pyflake_generator`:
`((timestamp-epoch) << timestamp_shift) | (seed << seed_shift) |
(pid << pid_shift) | sequence`, with Python's left-associated `|`. -/
def snowflake (epoch timestamp pid seed sequence : ℤ) : ℤ :=
  Int.lor
    (Int.lor
      (Int.lor ((timestamp - epoch) <<< (timestamp_shift : ℤ))
        (seed <<< (seed_shift : ℤ)))
      (pid <<< (pid_shift : ℤ)))
    sequence

/-- `to_timestamp(epoch, id, fmt)` from the source: strips the lower 22 bits
(`id >> 22`), adds the epoch, and divides by 1000 when seconds are requested
(Python's true division, hence a rational result). -/
def to_timestamp (epoch id : ℤ) (fmt : String := "ms") : ℚ :=
  let id2 := id >>> (22 : ℤ)
  let id3 := id2 + epoch
  if fmt = "s" then (id3 : ℚ) / 1000 else (id3 : ℚ)

/-- The inclusive upper bound that `generate_seed(bits)` passes to
`random.randint`, namely the Python expression `(2^bits-1)`.  In Python `^`
is bitwise xor and binds more loosely than `-`, so this is `2 xor (bits - 1)`
(with Python's `bits - 1` agreeing with truncated subtraction for the
`bits ≥ 1` inputs at issue). -/
def generate_seed_upper (bits : ℕ) : ℕ := 2 ^^^ (bits - 1)

/-- Modelled from the spec: the upper bound of the inclusive range
`[1, 2^bits - 1]` that the specified helper `random_in_range(bits)` samples
from.  Stated separately so it can be compared with the bound the source
actually passes to `random.randint`. -/
def random_in_range_upper (bits : ℕ) : ℕ := 2 ^ bits - 1

/-- The persistent cross-call state of `pyflake_generator`: the local
variables `last_timestamp` and `sequence` that survive between `yield`s. -/
structure GenState where
  last_timestamp : ℤ
  sequence : ℤ
deriving DecidableEq, Repr

/-- The state right after `pyflake_generator` is created:
`last_timestamp = -1`, `sequence = 0`. -/
def initState : GenState := ⟨-1, 0⟩

/-- Outcome of one iteration of the `while True:` loop: either the iteration
called `sleep(ms)` and restarted with `continue` (no identifier produced), or
it reached the `yield` and produced the identifier `id`. -/
inductive StepOut where
  | sleep (ms : ℤ)
  | emit (id : ℤ)
deriving DecidableEq, Repr

/-- One iteration of the `while True:` body of `pyflake_generator`, given the
clock reading `timestamp` obtained at the top of the iteration.  Returns the
outcome together with the updated `(last_timestamp, sequence)` state. -/
def pyflake_cycle (epoch pid seed : ℤ) (s : GenState) (timestamp : ℤ) :
    StepOut × GenState :=
  if s.last_timestamp > timestamp then
    (StepOut.sleep (s.last_timestamp - timestamp), s)
  else if s.last_timestamp = timestamp then
    let sequence := Int.land (s.sequence + 1) sequence_mask
    if sequence = 0 then
      (StepOut.sleep 1, { s with sequence := Int.land (-1) sequence_mask })
    else
      (StepOut.emit (snowflake epoch timestamp pid seed sequence),
        { last_timestamp := timestamp, sequence := sequence })
  else
    (StepOut.emit (snowflake epoch timestamp pid seed 0),
      { last_timestamp := timestamp, sequence := 0 })

/-- A run of the issuance loop over a list of clock readings (one reading per
loop iteration).  Collects, in order, every identifier reaching a `yield`
together with the generator state at that `yield`.  Serialized sequential
calls to `next(generator)` observe exactly this list, element by element. -/
def pyflake_run (epoch pid seed : ℤ) (s : GenState) : List ℤ → List (ℤ × GenState)
  | [] => []
  | t :: ts =>
    match pyflake_cycle epoch pid seed s t with
    | (StepOut.sleep _, s') => pyflake_run epoch pid seed s' ts
    | (StepOut.emit id, s') => (id, s') :: pyflake_run epoch pid seed s' ts

/-- The raw identifiers issued during a run, in issuance order. -/
def genIds (epoch pid seed : ℤ) (s : GenState) (ts : List ℤ) : List ℤ :=
  (pyflake_run epoch pid seed s ts).map Prod.fst

/-- The constructor-time validation failure of `pyflake_generator` (the two
`assert` statements on `pid` and `seed`); `InvalidField` in the
specification's error taxonomy. -/
inductive PyflakeError where
  | InvalidField
deriving DecidableEq, Repr

/-- Creation of a `pyflake_generator(epoch, pid, seed)`: the two source
assertions `pid >= 0 and pid <= max_pid` and `seed >= 0 and seed <= max_seed`
guard construction; on success the generator starts in `initState`. -/
def pyflake_generator (epoch pid seed : ℤ) : Except PyflakeError GenState :=
  if 0 ≤ pid ∧ pid ≤ max_pid ∧ 0 ≤ seed ∧ seed ≤ max_seed then
    Except.ok initState
  else
    Except.error PyflakeError.InvalidField

namespace SrcNested

/-- Python's `int.bit_length()`: the number of bits needed to represent the
absolute value (`(0).bit_length() == 0`). -/
def bit_length (i : ℤ) : ℕ := i.natAbs.size

/-- The `Pyflake` record class of `src/main.py`: the deconstructed
identifier exposed to clients, carrying the epoch and the four source fields
(`timestamp`, `pid`, `seed`, `sequence`). -/
structure Pyflake where
  epoch : ℤ
  timestamp : ℤ
  pid : ℤ
  seed : ℤ
  sequence : ℤ
deriving DecidableEq, Repr

/-- `Pyflake.timestamp_bits`: `(self.timestamp - self.epoch).bit_length()`. -/
def Pyflake.timestamp_bits (p : Pyflake) : ℕ := bit_length (p.timestamp - p.epoch)

/-- `Pyflake.pid_bits`: `self.pid.bit_length()`. -/
def Pyflake.pid_bits (p : Pyflake) : ℕ := bit_length p.pid

/-- `Pyflake.seed_bits`: `self.seed.bit_length()`. -/
def Pyflake.seed_bits (p : Pyflake) : ℕ := bit_length p.seed

/-- `Pyflake.sequence_bits`: `self.sequence.bit_length()`. -/
def Pyflake.sequence_bits (p : Pyflake) : ℕ := bit_length p.sequence

/-- `Pyflake.pid_shift`: `self.sequence_bits()`. -/
def Pyflake.pid_shift (p : Pyflake) : ℕ := p.sequence_bits

/-- `Pyflake.seed_shift`: `self.pid_shift() + self.pid_bits()`. -/
def Pyflake.seed_shift (p : Pyflake) : ℕ := p.pid_shift + p.pid_bits

/-- `Pyflake.timestamp_shift`: `self.seed_shift() + self.seed_bits()`. -/
def Pyflake.timestamp_shift (p : Pyflake) : ℕ := p.seed_shift + p.seed_bits

/-- `Pyflake.snowflake`: the raw value the record exposes,
`((timestamp-epoch) << timestamp_shift) | (seed << seed_shift) |
(pid << pid_shift) | sequence` with the shifts derived from the *bit
lengths* of the current field values.  (The source references the shift
methods without calling them, which raises `TypeError` at runtime; this
embedding reads them as the evidently intended calls, the most charitable
executable reading.) -/
def Pyflake.snowflake (p : Pyflake) : ℤ :=
  Int.lor
    (Int.lor
      (Int.lor ((p.timestamp - p.epoch) <<< ((p.timestamp_shift : ℕ) : ℤ))
        (p.seed <<< ((p.seed_shift : ℕ) : ℤ)))
      (p.pid <<< ((p.pid_shift : ℕ) : ℤ)))
    p.sequence

end SrcNested

/-! ### Numeric values of the bit-twiddled constants -/

theorem max_pid_eq : max_pid = 31 := by decide

theorem max_seed_eq : max_seed = 31 := by decide

theorem sequence_mask_eq : sequence_mask = 4095 := by decide

theorem int_lor_natCast (a b : ℕ) : Int.lor (a : ℤ) (b : ℤ) = ((a ||| b : ℕ) : ℤ) := rfl

theorem int_land_natCast (a b : ℕ) : Int.land (a : ℤ) (b : ℤ) = ((a &&& b : ℕ) : ℤ) := rfl

theorem nat_ldiff_zero (n : ℕ) : Nat.ldiff n 0 = n := by
  unfold Nat.ldiff
  rw [Nat.bitwise_zero_right]
  norm_num

theorem int_land_neg_one_natCast (n : ℕ) : Int.land (-1) (n : ℤ) = n := by
  have h : Int.land (-1) (n : ℤ) = ((Nat.ldiff n 0 : ℕ) : ℤ) := rfl
  rw [h, nat_ldiff_zero]

theorem int_land_neg_one_mask : Int.land (-1) sequence_mask = 4095 := by
  rw [sequence_mask_eq]
  exact int_land_neg_one_natCast 4095

theorem int_land_mask_emod (x : ℤ) (hx : 0 ≤ x) :
    Int.land x sequence_mask = x % 4096 := by
  rw [sequence_mask_eq]
  lift x to ℕ using hx with n
  rw [show (4095 : ℤ) = ((4095 : ℕ) : ℤ) from rfl, int_land_natCast]
  have hmod : n &&& 4095 = n % 4096 := by
    have h := Nat.and_pow_two_sub_one_eq_mod n 12
    norm_num at h
    exact h
  rw [hmod]
  push_cast
  rfl

/-! ### Bitwise packing of disjoint fields is addition -/

theorem shiftLeft_lor_eq_add (a : ℕ) : ∀ k b : ℕ, b < 2 ^ k → a <<< k ||| b = a <<< k + b := by
  intro k
  induction k with
  | zero =>
    intro b hb
    have hb0 : b = 0 := by omega
    subst hb0
    rw [Nat.or_zero, Nat.add_zero]
  | succ k ih =>
    intro b hb
    have hb2 : b.div2 < 2 ^ k := by
      rw [Nat.div2_val]
      have hpow : 2 ^ (k + 1) = 2 ^ k * 2 := by rw [pow_succ]
      omega
    have hsl : a <<< (k + 1) = Nat.bit false (a <<< k) := by
      rw [Nat.shiftLeft_eq, Nat.shiftLeft_eq, Nat.bit_val, pow_succ]
      simp [Bool.toNat]
      ring
    have hb' : b = Nat.bit b.bodd b.div2 := (Nat.bit_decomp b).symm
    rw [hsl]
    conv_lhs => rw [hb']
    rw [Nat.lor_bit, ih b.div2 hb2, Bool.false_or]
    rw [Nat.bit_val, Nat.bit_val]
    have hd := Nat.bodd_add_div2 b
    simp only [Bool.toNat_false]
    omega

theorem nat_pack_eq (d sn pn qn : ℕ) (hs : sn ≤ 31) (hp : pn ≤ 31) (hq : qn ≤ 4095) :
    ((d <<< 22 ||| sn <<< 17) ||| pn <<< 12) ||| qn
      = d * 4194304 + sn * 131072 + pn * 4096 + qn := by
  rw [Nat.lor_assoc, Nat.lor_assoc]
  rw [shiftLeft_lor_eq_add pn 12 qn (by omega)]
  rw [shiftLeft_lor_eq_add sn 17 (pn <<< 12 + qn)
    (by rw [Nat.shiftLeft_eq]; norm_num; omega)]
  rw [shiftLeft_lor_eq_add d 22 (sn <<< 17 + (pn <<< 12 + qn))
    (by rw [Nat.shiftLeft_eq, Nat.shiftLeft_eq]; norm_num; omega)]
  rw [Nat.shiftLeft_eq, Nat.shiftLeft_eq, Nat.shiftLeft_eq]
  norm_num
  ring

/-! ### Closed forms of the emitted snowflake value -/

theorem snowflake_natCast_form (e t p sd q : ℤ) (ht : e ≤ t)
    (hp : 0 ≤ p) (hp2 : p ≤ 31) (hs : 0 ≤ sd) (hs2 : sd ≤ 31)
    (hq : 0 ≤ q) (hq2 : q ≤ 4095) :
    ∃ d pn sn qn : ℕ,
      t - e = (d : ℤ) ∧ p = (pn : ℤ) ∧ sd = (sn : ℤ) ∧ q = (qn : ℤ) ∧
      pn ≤ 31 ∧ sn ≤ 31 ∧ qn ≤ 4095 ∧
      snowflake e t p sd q
        = ((d * 4194304 + sn * 131072 + pn * 4096 + qn : ℕ) : ℤ) := by
  obtain ⟨d, hd⟩ := Int.eq_ofNat_of_zero_le (sub_nonneg.mpr ht)
  obtain ⟨pn, hpn⟩ := Int.eq_ofNat_of_zero_le hp
  obtain ⟨sn, hsn⟩ := Int.eq_ofNat_of_zero_le hs
  obtain ⟨qn, hqn⟩ := Int.eq_ofNat_of_zero_le hq
  refine ⟨d, pn, sn, qn, hd, hpn, hsn, hqn, by omega, by omega, by omega, ?_⟩
  unfold snowflake
  rw [show timestamp_shift = 22 from rfl, show seed_shift = 17 from rfl,
      show pid_shift = 12 from rfl]
  rw [hd, hpn, hsn, hqn]
  rw [Int.shiftLeft_coe_nat, Int.shiftLeft_coe_nat, Int.shiftLeft_coe_nat]
  rw [int_lor_natCast, int_lor_natCast, int_lor_natCast]
  rw [nat_pack_eq d sn pn qn (by omega) (by omega) (by omega)]

theorem snowflake_eq_add (e t p sd q : ℤ) (ht : e ≤ t)
    (hp : 0 ≤ p) (hp2 : p ≤ 31) (hs : 0 ≤ sd) (hs2 : sd ≤ 31)
    (hq : 0 ≤ q) (hq2 : q ≤ 4095) :
    snowflake e t p sd q = (t - e) * 4194304 + sd * 131072 + p * 4096 + q := by
  obtain ⟨d, pn, sn, qn, hd, hpn, hsn, hqn, _, _, _, hval⟩ :=
    snowflake_natCast_form e t p sd q ht hp hp2 hs hs2 hq hq2
  rw [hval]
  push_cast
  omega

theorem snowflake_shiftRight_22 (e t p sd q : ℤ) (ht : e ≤ t)
    (hp : 0 ≤ p) (hp2 : p ≤ 31) (hs : 0 ≤ sd) (hs2 : sd ≤ 31)
    (hq : 0 ≤ q) (hq2 : q ≤ 4095) :
    snowflake e t p sd q >>> (22 : ℤ) = t - e := by
  obtain ⟨d, pn, sn, qn, hd, hpn, hsn, hqn, hpn2, hsn2, hqn2, hval⟩ :=
    snowflake_natCast_form e t p sd q ht hp hp2 hs hs2 hq hq2
  rw [hval, show (22 : ℤ) = ((22 : ℕ) : ℤ) from rfl, Int.shiftRight_coe_nat,
      Nat.shiftRight_eq_div_pow]
  have hdiv : (d * 4194304 + sn * 131072 + pn * 4096 + qn) / 2 ^ 22 = d := by
    norm_num
    omega
  rw [hdiv, ← hd]

theorem snowflake_shiftRight_12_mod (e t p sd q : ℤ) (ht : e ≤ t)
    (hp : 0 ≤ p) (hp2 : p ≤ 31) (hs : 0 ≤ sd) (hs2 : sd ≤ 31)
    (hq : 0 ≤ q) (hq2 : q ≤ 4095) :
    (snowflake e t p sd q >>> (12 : ℤ)) % 32 = p := by
  obtain ⟨d, pn, sn, qn, hd, hpn, hsn, hqn, hpn2, hsn2, hqn2, hval⟩ :=
    snowflake_natCast_form e t p sd q ht hp hp2 hs hs2 hq hq2
  rw [hval, show (12 : ℤ) = ((12 : ℕ) : ℤ) from rfl, Int.shiftRight_coe_nat,
      Nat.shiftRight_eq_div_pow]
  have hdiv : (d * 4194304 + sn * 131072 + pn * 4096 + qn) / 2 ^ 12
      = d * 1024 + sn * 32 + pn := by
    norm_num
    omega
  rw [hdiv, hpn]
  push_cast
  omega

theorem snowflake_shiftRight_17_mod (e t p sd q : ℤ) (ht : e ≤ t)
    (hp : 0 ≤ p) (hp2 : p ≤ 31) (hs : 0 ≤ sd) (hs2 : sd ≤ 31)
    (hq : 0 ≤ q) (hq2 : q ≤ 4095) :
    (snowflake e t p sd q >>> (17 : ℤ)) % 32 = sd := by
  obtain ⟨d, pn, sn, qn, hd, hpn, hsn, hqn, hpn2, hsn2, hqn2, hval⟩ :=
    snowflake_natCast_form e t p sd q ht hp hp2 hs hs2 hq hq2
  rw [hval, show (17 : ℤ) = ((17 : ℕ) : ℤ) from rfl, Int.shiftRight_coe_nat,
      Nat.shiftRight_eq_div_pow]
  have hdiv : (d * 4194304 + sn * 131072 + pn * 4096 + qn) / 2 ^ 17
      = d * 32 + sn := by
    norm_num
    omega
  rw [hdiv, hsn]
  push_cast
  omega

theorem snowflake_emod_4096 (e t p sd q : ℤ) (ht : e ≤ t)
    (hp : 0 ≤ p) (hp2 : p ≤ 31) (hs : 0 ≤ sd) (hs2 : sd ≤ 31)
    (hq : 0 ≤ q) (hq2 : q ≤ 4095) :
    snowflake e t p sd q % 4096 = q := by
  rw [snowflake_eq_add e t p sd q ht hp hp2 hs hs2 hq hq2]
  omega

theorem snowflake_strictMono (e t1 t2 p sd q1 q2 : ℤ) (ht1 : e ≤ t1)
    (hp : 0 ≤ p) (hp2 : p ≤ 31) (hs : 0 ≤ sd) (hs2 : sd ≤ 31)
    (hq1 : 0 ≤ q1) (hq12 : q1 ≤ 4095) (hq2 : 0 ≤ q2) (hq22 : q2 ≤ 4095)
    (hlt : t1 < t2 ∨ (t1 = t2 ∧ q1 < q2)) :
    snowflake e t1 p sd q1 < snowflake e t2 p sd q2 := by
  have ht2 : e ≤ t2 := by omega
  rw [snowflake_eq_add e t1 p sd q1 ht1 hp hp2 hs hs2 hq1 hq12,
      snowflake_eq_add e t2 p sd q2 ht2 hp hp2 hs hs2 hq2 hq22]
  rcases hlt with h | ⟨rfl, h⟩
  · have hmul : (t1 - e) * 4194304 + 4194304 ≤ (t2 - e) * 4194304 := by
      have : t1 - e + 1 ≤ t2 - e := by omega
      nlinarith
    omega
  · omega

theorem to_timestamp_snowflake (e t p sd q : ℤ) (ht : e ≤ t)
    (hp : 0 ≤ p) (hp2 : p ≤ 31) (hs : 0 ≤ sd) (hs2 : sd ≤ 31)
    (hq : 0 ≤ q) (hq2 : q ≤ 4095) :
    to_timestamp e (snowflake e t p sd q) = (t : ℚ) := by
  simp only [to_timestamp]
  rw [if_neg (by decide : ¬(("ms" : String) = "s"))]
  rw [snowflake_shiftRight_22 e t p sd q ht hp hp2 hs hs2 hq hq2]
  push_cast
  ring

/-! ### The issuance state machine -/

/-- Invariant on the persisted generator state: the sequence counter stays in
the representable range of `sequence_bits` bits. -/
def SeqInv (s : GenState) : Prop := 0 ≤ s.sequence ∧ s.sequence ≤ 4095

/-- Strict lexicographic order on `(last_timestamp, sequence)`. -/
def keyLt (s s' : GenState) : Prop :=
  s.last_timestamp < s'.last_timestamp ∨
    (s.last_timestamp = s'.last_timestamp ∧ s.sequence < s'.sequence)

theorem keyLt_trans {a b c : GenState} (h1 : keyLt a b) (h2 : keyLt b c) :
    keyLt a c := by
  unfold keyLt at *
  omega

theorem initState_SeqInv : SeqInv initState := by
  constructor <;> simp [initState]

/-- Exhaustive description of one loop iteration under the state invariant:
backward clock (sleep, state unchanged), sequence overflow (sleep 1ms, state
unchanged since the sequence is re-set to its maximum), same-millisecond
emission (sequence incremented), or forward emission (sequence reset). -/
theorem pyflake_cycle_spec (e p sd : ℤ) (s : GenState) (t : ℤ) (hInv : SeqInv s) :
    (t < s.last_timestamp ∧
        pyflake_cycle e p sd s t = (StepOut.sleep (s.last_timestamp - t), s)) ∨
    (s.last_timestamp = t ∧ s.sequence = 4095 ∧
        pyflake_cycle e p sd s t = (StepOut.sleep 1, s)) ∨
    (s.last_timestamp = t ∧ s.sequence < 4095 ∧
        pyflake_cycle e p sd s t =
          (StepOut.emit (snowflake e t p sd (s.sequence + 1)),
            ⟨t, s.sequence + 1⟩)) ∨
    (s.last_timestamp < t ∧
        pyflake_cycle e p sd s t =
          (StepOut.emit (snowflake e t p sd 0), ⟨t, 0⟩)) := by
  obtain ⟨hInv0, hInv1⟩ := hInv
  have hm : Int.land (s.sequence + 1) sequence_mask = (s.sequence + 1) % 4096 :=
    int_land_mask_emod _ (by omega)
  unfold pyflake_cycle
  rcases lt_trichotomy s.last_timestamp t with hlt | heq | hgt
  · right; right; right
    refine ⟨hlt, ?_⟩
    rw [if_neg (by omega), if_neg (by omega)]
  · simp only [hm]
    rcases eq_or_lt_of_le hInv1 with h4095 | hlt4095
    · right; left
      refine ⟨heq, h4095, ?_⟩
      rw [if_neg (by omega), if_pos heq, if_pos (by omega), int_land_neg_one_mask]
      obtain ⟨lt, sq⟩ := s
      simp only [GenState.sequence] at h4095
      simp [h4095]
    · right; right; left
      refine ⟨heq, hlt4095, ?_⟩
      rw [if_neg (by omega), if_pos heq, if_neg (by omega)]
      rw [show (s.sequence + 1) % 4096 = s.sequence + 1 by omega]
  · left
    refine ⟨hgt, ?_⟩
    rw [if_pos (by omega)]

/-- Main run invariant: every `yield` of a run leaves the generator in a
state satisfying `SeqInv`, whose `last_timestamp` is one of the clock
readings of the run, strictly above the starting key; the emitted value is
exactly the packing of the post-`yield` state; and the post-`yield` states
are strictly increasing in the lexicographic key order. -/
theorem pyflake_run_spec (e p sd : ℤ) :
    ∀ (ts : List ℤ) (s : GenState), SeqInv s →
      (∀ pr ∈ pyflake_run e p sd s ts,
          SeqInv pr.2 ∧ pr.2.last_timestamp ∈ ts ∧ keyLt s pr.2 ∧
          pr.1 = snowflake e pr.2.last_timestamp p sd pr.2.sequence) ∧
      List.Pairwise (fun a b => keyLt a.2 b.2) (pyflake_run e p sd s ts) := by
  intro ts
  induction ts with
  | nil =>
    intro s hs
    simp [pyflake_run]
  | cons t ts ih =>
    intro s hs
    rcases pyflake_cycle_spec e p sd s t hs with
      ⟨hlt, hc⟩ | ⟨heq, h4095, hc⟩ | ⟨heq, hlt4095, hc⟩ | ⟨hlt, hc⟩
    · simp only [pyflake_run, hc]
      refine ⟨?_, (ih s hs).2⟩
      intro pr hpr
      obtain ⟨h1, h2, h3, h4⟩ := (ih s hs).1 pr hpr
      exact ⟨h1, List.mem_cons_of_mem _ h2, h3, h4⟩
    · simp only [pyflake_run, hc]
      refine ⟨?_, (ih s hs).2⟩
      intro pr hpr
      obtain ⟨h1, h2, h3, h4⟩ := (ih s hs).1 pr hpr
      exact ⟨h1, List.mem_cons_of_mem _ h2, h3, h4⟩
    · have hs' : SeqInv ⟨t, s.sequence + 1⟩ := by
        obtain ⟨a, b⟩ := hs
        exact ⟨by simpa using by omega, by simpa using by omega⟩
      have hks' : keyLt s ⟨t, s.sequence + 1⟩ := Or.inr ⟨heq, by simp⟩
      simp only [pyflake_run, hc]
      obtain ⟨hmem, hpair⟩ := ih ⟨t, s.sequence + 1⟩ hs'
      constructor
      · intro pr hpr
        rcases List.mem_cons.mp hpr with hpr0 | hpr'
        · subst hpr0
          exact ⟨hs', List.mem_cons_self _ _, hks', rfl⟩
        · obtain ⟨h1, h2, h3, h4⟩ := hmem pr hpr'
          exact ⟨h1, List.mem_cons_of_mem _ h2, keyLt_trans hks' h3, h4⟩
      · refine List.Pairwise.cons ?_ hpair
        intro b hb
        exact (hmem b hb).2.2.1
    · have hs' : SeqInv ⟨t, 0⟩ := ⟨by simp, by simp⟩
      have hks' : keyLt s ⟨t, 0⟩ := Or.inl (by simpa using hlt)
      simp only [pyflake_run, hc]
      obtain ⟨hmem, hpair⟩ := ih ⟨t, 0⟩ hs'
      constructor
      · intro pr hpr
        rcases List.mem_cons.mp hpr with hpr0 | hpr'
        · subst hpr0
          exact ⟨hs', List.mem_cons_self _ _, hks', rfl⟩
        · obtain ⟨h1, h2, h3, h4⟩ := hmem pr hpr'
          exact ⟨h1, List.mem_cons_of_mem _ h2, keyLt_trans hks' h3, h4⟩
      · refine List.Pairwise.cons ?_ hpair
        intro b hb
        exact (hmem b hb).2.2.1

/-- Identifiers issued from a fresh generator are strictly increasing in
issuance order whenever the clock readings stay at or above the epoch. -/
theorem genIds_pairwise_lt (e p sd : ℤ) (ts : List ℤ)
    (hp : 0 ≤ p) (hp2 : p ≤ 31) (hs : 0 ≤ sd) (hs2 : sd ≤ 31)
    (hts : ∀ t ∈ ts, e ≤ t) :
    List.Pairwise (· < ·) (genIds e p sd initState ts) := by
  obtain ⟨hmem, hpair⟩ := pyflake_run_spec e p sd ts initState initState_SeqInv
  unfold genIds
  rw [List.pairwise_map]
  refine List.Pairwise.imp_of_mem ?_ hpair
  intro a b ha hb hk
  obtain ⟨⟨ha0, ha1⟩, ha2, -, ha4⟩ := hmem a ha
  obtain ⟨⟨hb0, hb1⟩, hb2, -, hb4⟩ := hmem b hb
  rw [ha4, hb4]
  exact snowflake_strictMono e _ _ p sd _ _ (hts _ ha2) hp hp2 hs hs2
    ha0 ha1 hb0 hb1 (by unfold keyLt at hk; omega)

/-- A strictly increasing list of integers inside a window of `n` integers
has at most `n` elements. -/
theorem pairwise_lt_length_le (l : List ℤ) :
    ∀ (a : ℤ) (n : ℕ), List.Pairwise (· < ·) l →
      (∀ x ∈ l, a ≤ x ∧ x < a + n) → l.length ≤ n := by
  induction l with
  | nil =>
    intro a n _ _
    simp
  | cons h t ih =>
    intro a n hp hb
    obtain ⟨hha, hhn⟩ := hb h (List.mem_cons_self _ _)
    have hn1 : 1 ≤ n := by omega
    have hlen : t.length ≤ n - 1 := by
      refine ih (h + 1) (n - 1) (List.Pairwise.of_cons hp) ?_
      intro x hx
      have hx1 := (List.pairwise_cons.mp hp).1 x hx
      have hx2 := hb x (List.mem_cons_of_mem _ hx)
      omega
    simp only [List.length_cons]
    omega

/-! ### Concrete bit lengths used by the record variant -/

theorem bit_length_zero : SrcNested.bit_length 0 = 0 := by
  simp [SrcNested.bit_length]

theorem bit_length_three : SrcNested.bit_length 3 = 2 := by
  show Nat.size 3 = 2
  have ha : Nat.size 3 ≤ 2 := Nat.size_le.mpr (by norm_num)
  have hb : 1 < Nat.size 3 := Nat.lt_size.mpr (by norm_num)
  omega

theorem bit_length_seven : SrcNested.bit_length 7 = 3 := by
  show Nat.size 7 = 3
  have ha : Nat.size 7 ≤ 3 := Nat.size_le.mpr (by norm_num)
  have hb : 2 < Nat.size 7 := Nat.lt_size.mpr (by norm_num)
  omega

theorem bit_length_5000 : SrcNested.bit_length 5000 = 13 := by
  show Nat.size 5000 = 13
  have ha : Nat.size 5000 ≤ 13 := Nat.size_le.mpr (by norm_num)
  have hb : 12 < Nat.size 5000 := Nat.lt_size.mpr (by norm_num)
  omega

/-! ### Claims -/

/-- C1: for a single generator whose issuance calls are serialized, every
earlier call yields a strictly smaller identifier than every later call
(strict monotonicity in issuance order), and hence any number of sequential
calls to `generate()` return pairwise distinct raw values. -/
theorem generator_monotonic_and_unique (e p sd : ℤ) (ts : List ℤ)
    (hp : 0 ≤ p) (hp2 : p ≤ max_pid) (hs : 0 ≤ sd) (hs2 : sd ≤ max_seed)
    (hts : ∀ t ∈ ts, e ≤ t) :
    List.Pairwise (· < ·) (genIds e p sd initState ts) ∧
    (genIds e p sd initState ts).Nodup := by
  have hp2' : p ≤ 31 := by rwa [max_pid_eq] at hp2
  have hs2' : sd ≤ 31 := by rwa [max_seed_eq] at hs2
  have h := genIds_pairwise_lt e p sd ts hp hp2' hs hs2' hts
  exact ⟨h, List.Pairwise.imp (fun hab => ne_of_lt hab) h⟩

theorem generator_monotonic_and_unique_witness :
    List.Pairwise (· < ·) (genIds 0 3 7 initState [5, 5, 6]) ∧
    (genIds 0 3 7 initState [5, 5, 6]).Nodup :=
  generator_monotonic_and_unique 0 3 7 [5, 5, 6]
    (by decide) (by decide) (by decide) (by decide) (by decide)

/-- C2: decoding an encoded identifier with the same epoch and the default
milliseconds unit recovers the timestamp exactly, for every tuple within the
configured bit widths with `timestamp ≥ epoch`. -/
theorem decode_encode_roundtrip (epoch timestamp worker_id seed sequence : ℤ)
    (ht : epoch ≤ timestamp)
    (hw : 0 ≤ worker_id) (hw2 : worker_id < 2 ^ 5)
    (hs : 0 ≤ seed) (hs2 : seed < 2 ^ 5)
    (hq : 0 ≤ sequence) (hq2 : sequence < 2 ^ 12) :
    to_timestamp epoch (snowflake epoch timestamp worker_id seed sequence)
      = (timestamp : ℚ) := by
  have hw2' : worker_id ≤ 31 := by norm_num at hw2; omega
  have hs2' : seed ≤ 31 := by norm_num at hs2; omega
  have hq2' : sequence ≤ 4095 := by norm_num at hq2; omega
  exact to_timestamp_snowflake epoch timestamp worker_id seed sequence
    ht hw hw2' hs hs2' hq hq2'

theorem decode_encode_roundtrip_witness :
    to_timestamp 1600000000000 (snowflake 1600000000000 1600000005000 3 7 0)
      = ((1600000005000 : ℤ) : ℚ) :=
  decode_encode_roundtrip 1600000000000 1600000005000 3 7 0
    (by decide) (by decide) (by decide) (by decide) (by decide)
    (by decide) (by decide)

/-- C3: with epoch 1600000000000, pid 3, seed 7, the first `generate()` at
simulated clock time 1600000005000 ms emits exactly
`(5000 << 22) | (7 << 17) | (3 << 12) | 0 = 20972449792`, and decoding that
identifier with the same epoch gives back 1600000005000. -/
theorem first_generate_concrete :
    genIds 1600000000000 3 7 initState [1600000005000]
        = [snowflake 1600000000000 1600000005000 3 7 0] ∧
    snowflake 1600000000000 1600000005000 3 7 0
        = Int.lor (Int.lor (Int.lor ((5000 : ℤ) <<< (22 : ℤ))
            ((7 : ℤ) <<< (17 : ℤ))) ((3 : ℤ) <<< (12 : ℤ))) 0 ∧
    snowflake 1600000000000 1600000005000 3 7 0 = 20972449792 ∧
    to_timestamp 1600000000000 (snowflake 1600000000000 1600000005000 3 7 0)
        = ((1600000005000 : ℤ) : ℚ) := by
  refine ⟨by decide, by decide, by decide, ?_⟩
  exact to_timestamp_snowflake 1600000000000 1600000005000 3 7 0
    (by decide) (by decide) (by decide) (by decide) (by decide)
    (by decide) (by decide)

/-- C4: when the clock reads earlier than `last_timestamp`, the iteration
calls the injected sleep primitive for exactly `last_timestamp - now`
milliseconds and restarts with unchanged state, emitting nothing; and any
iteration that does emit leaves `last_timestamp` at least as large as
before, so the eventually-emitted identifier's timestamp field is never
smaller than the previous one. -/
theorem backward_clock_never_emits (e p sd now : ℤ) (s : GenState)
    (hb : now < s.last_timestamp) :
    pyflake_cycle e p sd s now = (StepOut.sleep (s.last_timestamp - now), s) ∧
    ∀ (t id : ℤ) (s' : GenState),
      pyflake_cycle e p sd s t = (StepOut.emit id, s') →
      s.last_timestamp ≤ s'.last_timestamp := by
  constructor
  · unfold pyflake_cycle
    rw [if_pos (by omega)]
  · intro t id s' h
    simp only [pyflake_cycle] at h
    split_ifs at h with h1 h2 h3
    · exact absurd h (by simp)
    · exact absurd h (by simp)
    · have h2' := congrArg Prod.snd h
      simp only at h2'
      rw [← h2']
      simp only [GenState.last_timestamp]
      omega
    · have h2' := congrArg Prod.snd h
      simp only at h2'
      rw [← h2']
      simp only [GenState.last_timestamp]
      omega

theorem backward_clock_never_emits_witness :
    pyflake_cycle 0 3 7 ⟨10, 0⟩ 7 = (StepOut.sleep (GenState.last_timestamp ⟨10, 0⟩ - 7), ⟨10, 0⟩) ∧
    ∀ (t id : ℤ) (s' : GenState),
      pyflake_cycle 0 3 7 ⟨10, 0⟩ t = (StepOut.emit id, s') →
      GenState.last_timestamp ⟨10, 0⟩ ≤ s'.last_timestamp :=
  backward_clock_never_emits 0 3 7 7 ⟨10, 0⟩ (by decide)

/-- C5: when an issuance falls in the same millisecond as the previous one
and the sequence increment wraps to zero, the generator pins the sequence at
`2^12 - 1`, sleeps a fixed 1 ms and restarts without emitting; consequently
a run whose clock readings all show one and the same millisecond issues at
most `2^12 = 4096` identifiers. -/
theorem sequence_overflow_waits (e p sd t : ℤ) (s : GenState)
    (hp : 0 ≤ p) (hp2 : p ≤ max_pid) (hs : 0 ≤ sd) (hs2 : sd ≤ max_seed)
    (het : e ≤ t) (hlast : s.last_timestamp = t) (hseq : s.sequence = 4095) :
    pyflake_cycle e p sd s t = (StepOut.sleep 1, (⟨t, 4095⟩ : GenState)) ∧
    ∀ n : ℕ, (genIds e p sd initState (List.replicate n t)).length ≤ 4096 := by
  have hp2' : p ≤ 31 := by rwa [max_pid_eq] at hp2
  have hs2' : sd ≤ 31 := by rwa [max_seed_eq] at hs2
  constructor
  · rcases pyflake_cycle_spec e p sd s t ⟨by omega, by omega⟩ with
      ⟨h1, -⟩ | ⟨-, -, hc⟩ | ⟨-, h2, -⟩ | ⟨h1, -⟩
    · omega
    · rw [hc]
      have hst : s = (⟨t, 4095⟩ : GenState) := by
        obtain ⟨a, b⟩ := s
        simp only [GenState.last_timestamp, GenState.sequence] at hlast hseq
        rw [hlast, hseq]
      rw [hst]
    · omega
    · omega
  · intro n
    obtain ⟨hmem, -⟩ :=
      pyflake_run_spec e p sd (List.replicate n t) initState initState_SeqInv
    have hplt : List.Pairwise (· < ·)
        (genIds e p sd initState (List.replicate n t)) :=
      genIds_pairwise_lt e p sd _ hp hp2' hs hs2'
        (fun x hx => by rw [List.eq_of_mem_replicate hx]; exact het)
    refine pairwise_lt_length_le _
      ((t - e) * 4194304 + sd * 131072 + p * 4096) 4096 hplt ?_
    intro x hx
    obtain ⟨pr, hpr, rfl⟩ := List.mem_map.mp hx
    obtain ⟨⟨h0, h1⟩, h2, -, h4⟩ := hmem pr hpr
    rw [List.eq_of_mem_replicate h2] at h4
    rw [h4, snowflake_eq_add e t p sd pr.2.sequence het hp hp2' hs hs2' h0 h1]
    constructor <;> omega

theorem sequence_overflow_waits_witness :
    pyflake_cycle 0 3 7 ⟨5, 4095⟩ 5 = (StepOut.sleep 1, (⟨5, 4095⟩ : GenState)) ∧
    ∀ n : ℕ, (genIds 0 3 7 initState (List.replicate n 5)).length ≤ 4096 :=
  sequence_overflow_waits 0 3 7 5 ⟨5, 4095⟩
    (by decide) (by decide) (by decide) (by decide) (by decide) (by decide)
    (by decide)

/-- C6: two consecutive issuance calls on a fresh generator at the identical
simulated millisecond produce identifiers whose sequence fields are 0 and 1,
whose timestamp fields coincide, and which satisfy `id_1 = id_0 + 1`. -/
theorem same_millisecond_pair (e p sd t : ℤ)
    (he : 0 ≤ e) (het : e ≤ t)
    (hp : 0 ≤ p) (hp2 : p ≤ max_pid) (hs : 0 ≤ sd) (hs2 : sd ≤ max_seed) :
    genIds e p sd initState [t, t]
        = [snowflake e t p sd 0, snowflake e t p sd 1] ∧
    snowflake e t p sd 1 = snowflake e t p sd 0 + 1 ∧
    snowflake e t p sd 0 % 4096 = 0 ∧ snowflake e t p sd 1 % 4096 = 1 ∧
    snowflake e t p sd 0 >>> (22 : ℤ) = snowflake e t p sd 1 >>> (22 : ℤ) := by
  have hp2' : p ≤ 31 := by rwa [max_pid_eq] at hp2
  have hs2' : sd ≤ 31 := by rwa [max_seed_eq] at hs2
  have hi1 : initState.last_timestamp = -1 := rfl
  have hi2 : initState.sequence = 0 := rfl
  have h1 : pyflake_cycle e p sd initState t
      = (StepOut.emit (snowflake e t p sd 0), ⟨t, 0⟩) := by
    rcases pyflake_cycle_spec e p sd initState t initState_SeqInv with
      ⟨ha, -⟩ | ⟨ha, -, -⟩ | ⟨ha, -, -⟩ | ⟨-, hc⟩
    · omega
    · omega
    · omega
    · exact hc
  have h2 : pyflake_cycle e p sd ⟨t, 0⟩ t
      = (StepOut.emit (snowflake e t p sd 1), ⟨t, 1⟩) := by
    rcases pyflake_cycle_spec e p sd ⟨t, 0⟩ t ⟨by simp, by simp⟩ with
      ⟨ha, -⟩ | ⟨-, ha, -⟩ | ⟨-, -, hc⟩ | ⟨ha, -⟩
    · simp only [GenState.last_timestamp] at ha
      omega
    · simp only [GenState.sequence] at ha
      omega
    · simpa using hc
    · simp only [GenState.last_timestamp] at ha
      omega
  refine ⟨?_, ?_, ?_, ?_, ?_⟩
  · simp [genIds, pyflake_run, h1, h2]
  · rw [snowflake_eq_add e t p sd 1 het hp hp2' hs hs2' (by omega) (by omega),
        snowflake_eq_add e t p sd 0 het hp hp2' hs hs2' (by omega) (by omega)]
    ring
  · exact snowflake_emod_4096 e t p sd 0 het hp hp2' hs hs2' (by omega) (by omega)
  · exact snowflake_emod_4096 e t p sd 1 het hp hp2' hs hs2' (by omega) (by omega)
  · rw [snowflake_shiftRight_22 e t p sd 0 het hp hp2' hs hs2' (by omega) (by omega),
        snowflake_shiftRight_22 e t p sd 1 het hp hp2' hs hs2' (by omega) (by omega)]

theorem same_millisecond_pair_witness :
    genIds 0 3 7 initState [5, 5]
        = [snowflake 0 5 3 7 0, snowflake 0 5 3 7 1] ∧
    snowflake 0 5 3 7 1 = snowflake 0 5 3 7 0 + 1 ∧
    snowflake 0 5 3 7 0 % 4096 = 0 ∧ snowflake 0 5 3 7 1 % 4096 = 1 ∧
    snowflake 0 5 3 7 0 >>> (22 : ℤ) = snowflake 0 5 3 7 1 >>> (22 : ℤ) :=
  same_millisecond_pair 0 3 7 5
    (by decide) (by decide) (by decide) (by decide) (by decide) (by decide)

/-- C7: constructing a generator with `pid = 2^5 = 32` fails with
`InvalidField` while `pid = 2^5 - 1 = 31` succeeds; construction fails with
`InvalidField` exactly when `pid` or `seed` leaves `[0, 2^5 - 1]`; and the
issuance loop itself never fails: every iteration either sleeps or emits. -/
theorem constructor_validation (e : ℤ) :
    pyflake_generator e 32 0 = Except.error PyflakeError.InvalidField ∧
    pyflake_generator e 31 0 = Except.ok initState ∧
    (∀ p sd : ℤ,
      pyflake_generator e p sd = Except.error PyflakeError.InvalidField ↔
        ¬(0 ≤ p ∧ p ≤ 31 ∧ 0 ≤ sd ∧ sd ≤ 31)) ∧
    ∀ (p sd : ℤ) (s : GenState) (t : ℤ),
      (∃ m s', pyflake_cycle e p sd s t = (StepOut.sleep m, s')) ∨
      (∃ id s', pyflake_cycle e p sd s t = (StepOut.emit id, s')) := by
  refine ⟨?_, ?_, ?_, ?_⟩
  · unfold pyflake_generator
    rw [if_neg (by decide)]
  · unfold pyflake_generator
    rw [if_pos (by decide)]
  · intro p sd
    unfold pyflake_generator
    rw [max_pid_eq, max_seed_eq]
    by_cases h : 0 ≤ p ∧ p ≤ 31 ∧ 0 ≤ sd ∧ sd ≤ 31
    · rw [if_pos h]
      constructor
      · intro hc
        exact absurd hc (by simp)
      · intro hc
        exact absurd h hc
    · rw [if_neg h]
      constructor
      · intro _
        exact h
      · intro _
        rfl
  · intro p sd s t
    cases hc : pyflake_cycle e p sd s t with
    | mk c s' =>
      cases c with
      | sleep m => exact Or.inl ⟨m, s', rfl⟩
      | emit id => exact Or.inr ⟨id, s', rfl⟩

/-- C8: in the record-producing variant, the raw value exposed by
`Pyflake.snowflake` does not agree with the fixed-width packing of its four
fields: the shifts are derived from the bit lengths of the current field
values, so the record `(epoch 0, timestamp 5000, pid 3, seed 7, sequence 0)`
exposes raw value `(5000 << 5) | (7 << 2) | (3 << 0) | 0 = 160031` instead
of the fixed-width `(5000 << 22) | (7 << 17) | (3 << 12) | 0 = 20972449792`
that the sibling 22-bit decoder `timestamp()` expects. -/
theorem nested_record_raw_value_mismatch :
    (SrcNested.Pyflake.mk 0 5000 3 7 0).snowflake = 160031 ∧
    snowflake 0 5000 3 7 0 = 20972449792 ∧
    (SrcNested.Pyflake.mk 0 5000 3 7 0).snowflake ≠ snowflake 0 5000 3 7 0 := by
  have hval : (SrcNested.Pyflake.mk 0 5000 3 7 0).snowflake = 160031 := by
    simp only [SrcNested.Pyflake.snowflake, SrcNested.Pyflake.timestamp_shift,
      SrcNested.Pyflake.seed_shift, SrcNested.Pyflake.pid_shift,
      SrcNested.Pyflake.seed_bits, SrcNested.Pyflake.pid_bits,
      SrcNested.Pyflake.sequence_bits]
    rw [bit_length_zero, bit_length_three, bit_length_seven]
    decide
  refine ⟨hval, by decide, ?_⟩
  rw [hval, show snowflake 0 5000 3 7 0 = 20972449792 by decide]
  decide

/-- C9: the helper `generate_seed(bits)` does not sample from
`[1, 2^bits - 1]`: the Python expression `(2^bits-1)` is `2 xor (bits - 1)`,
so for `bits = 5` the inclusive upper bound passed to `random.randint` is 6,
not 31, and for `bits = 1` the sampled range `[1, 2]` even exceeds the
documented maximum `2^1 - 1 = 1`. -/
theorem generate_seed_range_wrong :
    generate_seed_upper 5 = 6 ∧ random_in_range_upper 5 = 31 ∧
    generate_seed_upper 5 ≠ random_in_range_upper 5 ∧
    random_in_range_upper 1 < generate_seed_upper 1 := by
  decide

/-- C10: at every yield of a run from a fresh generator, the persisted
sequence lies in `[0, 2^12 - 1]`, the persisted `last_timestamp` equals the
timestamp field packed into the identifier just emitted (its upper bits plus
the epoch), the emitted identifier carries the constructor-supplied pid in
bits 12..16 and seed in bits 17..21, and `last_timestamp` never decreases
across successive yields. -/
theorem yield_state_invariants (e p sd : ℤ) (ts : List ℤ)
    (hp : 0 ≤ p) (hp2 : p ≤ max_pid) (hs : 0 ≤ sd) (hs2 : sd ≤ max_seed)
    (hts : ∀ t ∈ ts, e ≤ t) :
    (∀ pr ∈ pyflake_run e p sd initState ts,
        0 ≤ pr.2.sequence ∧ pr.2.sequence ≤ 4095 ∧
        pr.2.last_timestamp = pr.1 >>> (22 : ℤ) + e ∧
        (pr.1 >>> (12 : ℤ)) % 32 = p ∧
        (pr.1 >>> (17 : ℤ)) % 32 = sd) ∧
    List.Pairwise (fun a b => a.2.last_timestamp ≤ b.2.last_timestamp)
      (pyflake_run e p sd initState ts) := by
  have hp2' : p ≤ 31 := by rwa [max_pid_eq] at hp2
  have hs2' : sd ≤ 31 := by rwa [max_seed_eq] at hs2
  obtain ⟨hmem, hpair⟩ := pyflake_run_spec e p sd ts initState initState_SeqInv
  constructor
  · intro pr hpr
    obtain ⟨⟨h0, h1⟩, h2, -, h4⟩ := hmem pr hpr
    have het : e ≤ pr.2.last_timestamp := hts _ h2
    refine ⟨h0, h1, ?_, ?_, ?_⟩
    · rw [h4, snowflake_shiftRight_22 _ _ _ _ _ het hp hp2' hs hs2' h0 h1]
      omega
    · rw [h4, snowflake_shiftRight_12_mod _ _ _ _ _ het hp hp2' hs hs2' h0 h1]
    · rw [h4, snowflake_shiftRight_17_mod _ _ _ _ _ het hp hp2' hs hs2' h0 h1]
  · refine List.Pairwise.imp ?_ hpair
    intro a b hk
    unfold keyLt at hk
    omega

theorem yield_state_invariants_witness :
    (∀ pr ∈ pyflake_run 0 3 7 initState [5, 6],
        0 ≤ pr.2.sequence ∧ pr.2.sequence ≤ 4095 ∧
        pr.2.last_timestamp = pr.1 >>> (22 : ℤ) + 0 ∧
        (pr.1 >>> (12 : ℤ)) % 32 = 3 ∧
        (pr.1 >>> (17 : ℤ)) % 32 = 7) ∧
    List.Pairwise (fun a b => a.2.last_timestamp ≤ b.2.last_timestamp)
      (pyflake_run 0 3 7 initState [5, 6]) :=
  yield_state_invariants 0 3 7 [5, 6]
    (by decide) (by decide) (by decide) (by decide) (by decide)
